import Mathlib

/-!
Verification of the `@uistate/react` repository contract.

The repository ships a React-hooks adapter over the path-addressed reactive
store of `@uistate/core`; the store itself is consumed through its public
surface (`get` / `set` / `setMany` / `subscribe` / `batch` / `setAsync` /
`cancel` / `destroy`) and is the contract specified in spec.md.  We embed the
store's data model and operations below.  Paths (dot-delimited strings of
ASCII identifiers, e.g. `user.name`) are embedded as their lists of segments
(`["user", "name"]`); a wildcard subscription path `p.*` is the list
`p ++ ["*"]`.  Listener callbacks are identified by the numeric handle that
`subscribe` allocates, and an operation returns the ordered list of listener
handles it notified, so "the listener fired exactly once" is a statement
about `List.count` on that list.
-/

namespace UIState

/-- A JSON-like value: the values the store holds at paths. -/
inductive JValue where
  | null
  | bool (b : Bool)
  | num (n : Int)
  | str (s : String)
  | arr (items : List JValue)
  | obj (fields : List (String × JValue))

/-- Look a key up in an object's field list (first match wins). -/
def lookupField : List (String × JValue) → String → Option JValue
  | [], _ => none
  | (k, v) :: rest, key => if k = key then some v else lookupField rest key

/-- Replace the value at a key in an object's field list, or append the
key if absent. -/
def insertField : List (String × JValue) → String → JValue → List (String × JValue)
  | [], key, v => [(key, v)]
  | (k, w) :: rest, key, v =>
      if k = key then (key, v) :: rest else (k, w) :: insertField rest key v

/-- Modelled from the spec: `get(path)` resolution (§4.1 of spec.md, the
store itself being external to src/).  Descends the tree node by node;
missing intermediate segments yield `none` (JavaScript `undefined`) rather
than throwing; only objects descend. -/
def getPath : JValue → List String → Option JValue
  | v, [] => some v
  | JValue.obj fields, seg :: rest =>
      match lookupField fields seg with
      | some child => getPath child rest
      | none => none
  | _, _ :: _ => none

/-- Modelled from the spec: the tree update of `set(path, value)` (§4.1 of
spec.md).  Creates intermediate object nodes as needed; a non-container
value met on the way is overwritten with a fresh object (last-write-wins,
no throw, §7). -/
def setPath : JValue → List String → JValue → JValue
  | _, [], v => v
  | JValue.obj fields, seg :: rest, v =>
      JValue.obj (insertField fields seg
        (setPath ((lookupField fields seg).getD (JValue.obj [])) rest v))
  | _, seg :: rest, v => JValue.obj [(seg, setPath (JValue.obj []) rest v)]

theorem lookupField_insertField_self (fs : List (String × JValue)) (k : String) (v : JValue) :
    lookupField (insertField fs k v) k = some v := by
  induction fs with
  | nil => simp [insertField, lookupField]
  | cons hd tl ih =>
      obtain ⟨k', w⟩ := hd
      by_cases h : k' = k
      · simp [insertField, lookupField, h]
      · simp [insertField, lookupField, h, ih]

/-- Reading a just-written path, extended by any suffix, reads into the
written value. -/
theorem getPath_setPath_append (p : List String) (t v : JValue) (q : List String) :
    getPath (setPath t p v) (p ++ q) = getPath v q := by
  induction p generalizing t with
  | nil => simp [setPath]
  | cons seg rest ih =>
      cases t with
      | obj fields =>
          simp only [setPath, List.cons_append, getPath,
            lookupField_insertField_self]
          exact ih _
      | null => simp [setPath, getPath, lookupField]; exact ih _
      | bool b => simp [setPath, getPath, lookupField]; exact ih _
      | num n => simp [setPath, getPath, lookupField]; exact ih _
      | str s => simp [setPath, getPath, lookupField]; exact ih _
      | arr items => simp [setPath, getPath, lookupField]; exact ih _

theorem getPath_setPath_self (p : List String) (t v : JValue) :
    getPath (setPath t p v) p = some v := by
  have h := getPath_setPath_append p t v []
  simpa [getPath] using h

/-- Modelled from the spec: the PathStore of `@uistate/core` (§2-§4 of
spec.md; the store is external to src/ and reached only through its public
surface).  It owns the state tree, the two subscriber indices (exact and
wildcard, each a registration-ordered list of listener handle and path),
the allocation counter for handles, the transient batch context (active
flag and the dirty-path list in first-touched order), the destroyed flag,
and the per-path async generation counters. -/
structure Store where
  tree : JValue
  exactSubs : List (Nat × List String)
  wildSubs : List (Nat × List String)
  nextId : Nat
  batching : Bool
  dirty : List (List String)
  destroyed : Bool
  gens : List (List String × Nat)

/-- Modelled from the spec: `createEventState(initial)` builds a store
whose tree is the initial snapshot, with no subscribers, no open batch,
and no async generations. -/
def mkStore (init : JValue) : Store :=
  { tree := init, exactSubs := [], wildSubs := [], nextId := 0,
    batching := false, dirty := [], destroyed := false, gens := [] }

/-- Modelled from the spec: `get(path)` on a store (§4.1): resolves the
path against the current tree, no side effects. -/
def Store.get (s : Store) (p : List String) : Option JValue :=
  getPath s.tree p

/-- Modelled from the spec: the notification fan-out of one write to `p`
(§4.1, §4.2): every exact subscriber of `p`, then every wildcard subscriber
registered at `parent(p).*` (one level up only), each in
subscription-registration order.  A top-level path (fewer than two
segments) has no parent, so only exact subscribers fire. -/
def fireList (s : Store) (p : List String) : List Nat :=
  (s.exactSubs.filter (fun e => decide (e.2 = p))).map (fun e => e.1) ++
    (if 2 ≤ p.length then
      (s.wildSubs.filter (fun w => decide (w.2 = p.dropLast))).map (fun w => w.1)
    else [])

/-- Append a path to the dirty list unless already recorded (batch
deduplication, first-touched order preserved). -/
def addDirty (d : List (List String)) (p : List String) : List (List String) :=
  if p ∈ d then d else d ++ [p]

/-- Modelled from the spec: `set(path, value)` (§4.1, §4.3): writes the
tree immediately; outside a batch it synchronously notifies `fireList`,
inside a batch it records the path as dirty and notifies nobody yet.
Returns the updated store and the handles notified, in order. -/
def Store.set (s : Store) (p : List String) (v : JValue) : Store × List Nat :=
  let s' := { s with tree := setPath s.tree p v }
  if s.batching then ({ s' with dirty := addDirty s.dirty p }, [])
  else (s', fireList s' p)

/-- Modelled from the spec: `subscribe(path, listener)` (§4.1): a path
ending in a `.*` segment (so at least two segments, the last being `*`)
registers a wildcard subscription scoped to its parent; any other path
registers an exact subscription.  Returns the fresh listener handle (the
unsubscribe disposer is `Store.unsubscribe` on that handle). -/
def Store.subscribe (s : Store) (p : List String) : Store × Nat :=
  if 2 ≤ p.length ∧ p.getLast? = some "*" then
    ({ s with
        wildSubs := s.wildSubs ++ [(s.nextId, p.dropLast)]
        nextId := s.nextId + 1 }, s.nextId)
  else
    ({ s with
        exactSubs := s.exactSubs ++ [(s.nextId, p)]
        nextId := s.nextId + 1 }, s.nextId)

/-- Modelled from the spec: the unsubscribe disposer (§4.1): removes the
handle from both indices; calling it again is a no-op (the handle is
already gone), and it never throws. -/
def Store.unsubscribe (s : Store) (id : Nat) : Store :=
  { s with
    exactSubs := s.exactSubs.filter (fun e => decide (e.1 ≠ id))
    wildSubs := s.wildSubs.filter (fun w => decide (w.1 ≠ id)) }

/-- Modelled from the spec: `destroy()` (§4.1, §3 lifecycle): clears both
subscriber indices and marks the store inert; pending async generations
are invalidated (no further notifications fire after destroy). -/
def Store.destroy (s : Store) : Store :=
  { s with exactSubs := [], wildSubs := [], destroyed := true }

/-- The tree after a sequence of writes, applied left to right. -/
def applyWrites : JValue → List (List String × JValue) → JValue
  | t, [] => t
  | t, (p, v) :: rest => applyWrites (setPath t p v) rest

/-- The dirty-path accumulator over a sequence of writes: each write's
path is recorded once, in the order paths were first touched. -/
def collectDirty : List (List String) → List (List String × JValue) → List (List String)
  | d, [] => d
  | d, (p, _) :: rest => collectDirty (addDirty d p) rest

/-- Run a list of `set` writes against the store in order, discarding the
per-write notification lists (inside a batch they are all empty). -/
def runWrites (s : Store) : List (List String × JValue) → Store
  | [] => s
  | (p, v) :: ws => runWrites (s.set p v).1 ws

/-- Modelled from the spec: `batch(fn)` (§4.3), with `fn`'s nested writes
given as the list of `set` calls it performs.  Opens the batch context,
runs the writes (they update the tree and accumulate dirty paths), then on
completion notifies each dirty path's listeners exactly once, in the order
paths were first touched.  A nested `batch` collapses into the outer
context: it runs its writes and flushes nothing. -/
def Store.batch (s : Store) (writes : List (List String × JValue)) : Store × List Nat :=
  if s.batching then (runWrites s writes, [])
  else
    let s' := runWrites { s with batching := true } writes
    ({ s' with batching := false, dirty := [] },
      (s'.dirty.map (fun p => fireList s' p)).flatten)

/-- Modelled from the spec: `setMany(map)` (§4.1): applies every write in
the mapping to the tree, then notifies each affected path's listeners
once, after all writes are applied, not once per individual write; inside
an enclosing batch it only accumulates dirty paths like any batched
write. -/
def Store.setMany (s : Store) (entries : List (List String × JValue)) : Store × List Nat :=
  if s.batching then
    ({ s with
        tree := applyWrites s.tree entries
        dirty := collectDirty s.dirty entries }, [])
  else
    let s' := { s with tree := applyWrites s.tree entries }
    ({ s' with dirty := [] },
      ((collectDirty [] entries).map (fun p => fireList s' p)).flatten)

/-- The current async generation recorded for a path (0 before any
`setAsync` on it). -/
def genOf : List (List String × Nat) → List String → Nat
  | [], _ => 0
  | (q, g) :: rest, p => if q = p then g else genOf rest p

/-- The `data` field of an async envelope: carried over from the previous
value at `path.data` when one exists, absent otherwise (so the data is
left unchanged by the write). -/
def dataField : Option JValue → List (String × JValue)
  | some d => [("data", d)]
  | none => []

/-- The loading envelope `setAsync` writes synchronously: status
`loading`, data carried over unchanged, error null. -/
def loadingEnv (s : Store) (p : List String) : JValue :=
  JValue.obj (dataField (getPath s.tree (p ++ ["data"])) ++
    [("status", JValue.str "loading"), ("error", JValue.null)])

/-- Modelled from the spec: the synchronous part of
`setAsync(path, fetcher)` (§4.4 steps 1-2): assigns a new generation token
to the path, superseding any prior in-flight generation there, and writes
the loading envelope (status `loading`, data unchanged, error null) under
the path through the normal `set` machinery.  Returns the store, the
handles notified by the loading write, and the generation token the
in-flight fetcher carries. -/
def Store.setAsyncStart (s : Store) (p : List String) : Store × List Nat × Nat :=
  let g := genOf s.gens p + 1
  let r := Store.set { s with gens := (p, g) :: s.gens } p (loadingEnv s p)
  (r.1, r.2, g)

/-- Modelled from the spec: the fetcher-success continuation of `setAsync`
(§4.4 step 3): if the carried generation is still current and the store is
not destroyed, writes the success envelope (status `success`, data the
result, error null) and notifies; otherwise the result is discarded
without writing or notifying. -/
def Store.setAsyncResolve (s : Store) (p : List String) (g : Nat) (result : JValue) :
    Store × List Nat :=
  if g = genOf s.gens p ∧ s.destroyed = false then
    Store.set s p (JValue.obj
      [("status", JValue.str "success"), ("data", result), ("error", JValue.null)])
  else (s, [])

/-- Modelled from the spec: the fetcher-failure continuation of `setAsync`
(§4.4 step 4): if the carried generation is still current and the store is
not destroyed, writes the error envelope (status `error`, data unchanged,
error the failure description) and notifies; otherwise the failure is
discarded. -/
def Store.setAsyncReject (s : Store) (p : List String) (g : Nat) (err : String) :
    Store × List Nat :=
  if g = genOf s.gens p ∧ s.destroyed = false then
    Store.set s p (JValue.obj (dataField (getPath s.tree (p ++ ["data"])) ++
      [("status", JValue.str "error"), ("error", JValue.str err)]))
  else (s, [])

/-- Modelled from the spec: `cancel(path)` (§4.4): marks the current
generation at the path as superseded by bumping the generation counter; it
does not itself write any state. -/
def Store.cancel (s : Store) (p : List String) : Store :=
  { s with gens := (p, genOf s.gens p + 1) :: s.gens }

/-- `useStore` from the React adapter (src/unnamed/part_001): reads the
store from the `EventStateContext` (whose default value is `null`, here
`none`); throws when no provider supplied a store, returns the provided
store unchanged otherwise. -/
def useStore (ctx : Option Store) : Except String Store :=
  match ctx with
  | none => Except.error
      "useStore: no store found. Wrap your component tree in <EventStateProvider store={store}>."
  | some store => Except.ok store

/-- Store well-formedness: every registered listener handle was allocated
below the allocation counter (so the next handle is fresh), and outside a
batch the dirty list is empty (the batch context exists only during
`batch()` execution). -/
def WF (s : Store) : Prop :=
  (∀ e ∈ s.exactSubs, e.1 < s.nextId) ∧
  (∀ w ∈ s.wildSubs, w.1 < s.nextId) ∧
  (s.batching = false → s.dirty = [])

instance (s : Store) : Decidable (WF s) := by
  unfold WF; infer_instance

theorem set_fst_tree (s : Store) (p : List String) (v : JValue) :
    ((s.set p v).1).tree = setPath s.tree p v := by
  unfold Store.set; split <;> rfl

theorem set_fst_exactSubs (s : Store) (p : List String) (v : JValue) :
    ((s.set p v).1).exactSubs = s.exactSubs := by
  unfold Store.set; split <;> rfl

theorem set_fst_wildSubs (s : Store) (p : List String) (v : JValue) :
    ((s.set p v).1).wildSubs = s.wildSubs := by
  unfold Store.set; split <;> rfl

theorem set_fst_gens (s : Store) (p : List String) (v : JValue) :
    ((s.set p v).1).gens = s.gens := by
  unfold Store.set; split <;> rfl

theorem set_fst_destroyed (s : Store) (p : List String) (v : JValue) :
    ((s.set p v).1).destroyed = s.destroyed := by
  unfold Store.set; split <;> rfl

theorem set_fst_batching (s : Store) (p : List String) (v : JValue) :
    ((s.set p v).1).batching = s.batching := by
  unfold Store.set; split <;> rfl

theorem set_snd_of_not_batching (s : Store) (p : List String) (v : JValue)
    (hb : s.batching = false) :
    (s.set p v).2 = fireList { s with tree := setPath s.tree p v } p := by
  unfold Store.set
  simp [hb]

theorem fireList_tree_irrel (s : Store) (t : JValue) (p : List String) :
    fireList { s with tree := t } p = fireList s p := rfl

/-- No handle outside a list's first components is counted in the fired
projection of any filtering of that list. -/
theorem count_fst_filter_eq_zero (l : List (Nat × List String))
    (f : Nat × List String → Bool) (n : Nat) (h : ∀ x ∈ l, x.1 ≠ n) :
    (((l.filter f).map (fun e => e.1)).count n) = 0 := by
  rw [List.count_eq_zero]
  intro hmem
  obtain ⟨x, hx, hfst⟩ := List.mem_map.mp hmem
  exact h x (List.mem_of_mem_filter hx) hfst

theorem count_fireList_eq_zero (s : Store) (p : List String) (n : Nat)
    (he : ∀ x ∈ s.exactSubs, x.1 ≠ n) (hw : ∀ x ∈ s.wildSubs, x.1 ≠ n) :
    (fireList s p).count n = 0 := by
  unfold fireList
  rw [List.count_append, count_fst_filter_eq_zero _ _ _ he]
  by_cases hp : 2 ≤ p.length
  · simp [hp, count_fst_filter_eq_zero _ _ _ hw]
  · simp [hp]

theorem fireList_no_subs (s : Store) (p : List String)
    (h1 : s.exactSubs = []) (h2 : s.wildSubs = []) : fireList s p = [] := by
  simp [fireList, h1, h2]

theorem count_fst_filter_append_one (l : List (Nat × List String))
    (f : Nat × List String → Bool) (n : Nat) (x : Nat × List String)
    (h0 : ∀ y ∈ l, y.1 ≠ n) (hx : f x = true) (hxn : x.1 = n) :
    (((l ++ [x]).filter f).map (fun e => e.1)).count n = 1 := by
  rw [List.filter_append, List.map_append, List.count_append,
    count_fst_filter_eq_zero _ _ _ h0]
  simp [List.filter_cons, hx, hxn]

theorem count_fst_filter_append_zero (l : List (Nat × List String))
    (f : Nat × List String → Bool) (n : Nat) (x : Nat × List String)
    (h0 : ∀ y ∈ l, y.1 ≠ n) (hx : f x = false) :
    (((l ++ [x]).filter f).map (fun e => e.1)).count n = 0 := by
  rw [List.filter_append, List.map_append, List.count_append,
    count_fst_filter_eq_zero _ _ _ h0]
  simp [List.filter_cons, hx]

theorem mem_filter_ne_fst (l : List (Nat × List String)) (n : Nat) :
    ∀ x ∈ l.filter (fun e => decide (e.1 ≠ n)), x.1 ≠ n := by
  intro x hx
  have h := List.of_mem_filter hx
  simpa using h

theorem subscribe_snd (s : Store) (p : List String) :
    (s.subscribe p).2 = s.nextId := by
  unfold Store.subscribe; split <;> rfl

theorem subscribe_fst_wild (s : Store) (p : List String)
    (hc : 2 ≤ p.length ∧ p.getLast? = some "*") :
    (s.subscribe p).1 = { s with
      wildSubs := s.wildSubs ++ [(s.nextId, p.dropLast)]
      nextId := s.nextId + 1 } := by
  unfold Store.subscribe; rw [if_pos hc]

theorem subscribe_fst_exact (s : Store) (p : List String)
    (hc : ¬(2 ≤ p.length ∧ p.getLast? = some "*")) :
    (s.subscribe p).1 = { s with
      exactSubs := s.exactSubs ++ [(s.nextId, p)]
      nextId := s.nextId + 1 } := by
  unfold Store.subscribe; rw [if_neg hc]

theorem subscribe_fst_batching (s : Store) (p : List String) :
    (s.subscribe p).1.batching = s.batching := by
  unfold Store.subscribe; split <;> rfl

/-- A store whose exact index ends in a fresh handle subscribed to the
written path counts that handle exactly once in the fan-out. -/
theorem count_fireList_fresh_exact (t : Store) (p : List String) (n : Nat)
    (hexact : ∃ l, t.exactSubs = l ++ [(n, p)] ∧ ∀ x ∈ l, x.1 ≠ n)
    (hw : ∀ x ∈ t.wildSubs, x.1 ≠ n) :
    (fireList t p).count n = 1 := by
  obtain ⟨l, hl, h0⟩ := hexact
  unfold fireList
  rw [List.count_append, hl,
    count_fst_filter_append_one l _ n (n, p) h0 (by simp) rfl]
  by_cases hp : 2 ≤ p.length
  · simp [hp, count_fst_filter_eq_zero _ _ _ hw]
  · simp [hp]

/-- A store whose wildcard index ends in a fresh handle scoped to the
written path's parent counts that handle exactly once in the fan-out, the
written path having at least two segments. -/
theorem count_fireList_fresh_wild (t : Store) (p : List String) (n : Nat)
    (he : ∀ x ∈ t.exactSubs, x.1 ≠ n)
    (hwild : ∃ l, t.wildSubs = l ++ [(n, p.dropLast)] ∧ ∀ x ∈ l, x.1 ≠ n)
    (hp : 2 ≤ p.length) :
    (fireList t p).count n = 1 := by
  obtain ⟨l, hl, h0⟩ := hwild
  unfold fireList
  rw [List.count_append, count_fst_filter_eq_zero _ _ _ he, if_pos hp, hl,
    count_fst_filter_append_one l _ n (n, p.dropLast) h0 (by simp) rfl]

/-- C2: subscribing to a path and then writing to that same path fires
the returned listener handle exactly once; after unsubscribing the handle,
a subsequent write to the path fires it zero times. -/
theorem subscribe_fire_once_unsubscribe_fires_zero
    (s : Store) (p : List String) (v w : JValue) (hWF : WF s)
    (hb : s.batching = false) :
    ((s.subscribe p).1.set p v).2.count (s.subscribe p).2 = 1 ∧
    ((((s.subscribe p).1.set p v).1.unsubscribe (s.subscribe p).2).set p w).2.count
      (s.subscribe p).2 = 0 := by
  obtain ⟨hE, hW, -⟩ := hWF
  rw [subscribe_snd]
  have hE' : ∀ x ∈ s.exactSubs, x.1 ≠ s.nextId := fun x hx => Nat.ne_of_lt (hE x hx)
  have hW' : ∀ x ∈ s.wildSubs, x.1 ≠ s.nextId := fun x hx => Nat.ne_of_lt (hW x hx)
  have hb1 : (s.subscribe p).1.batching = false := by rw [subscribe_fst_batching]; exact hb
  constructor
  · rw [set_snd_of_not_batching _ _ _ hb1, fireList_tree_irrel]
    by_cases hc : 2 ≤ p.length ∧ p.getLast? = some "*"
    · rw [subscribe_fst_wild s p hc]
      exact count_fireList_fresh_wild _ p s.nextId hE' ⟨s.wildSubs, rfl, hW'⟩ hc.1
    · rw [subscribe_fst_exact s p hc]
      exact count_fireList_fresh_exact _ p s.nextId ⟨s.exactSubs, rfl, hE'⟩ hW'
  · have hbt : (((s.subscribe p).1.set p v).1.unsubscribe s.nextId).batching = false := by
      show ((s.subscribe p).1.set p v).1.batching = false
      rw [set_fst_batching]; exact hb1
    rw [set_snd_of_not_batching _ _ _ hbt, fireList_tree_irrel]
    exact count_fireList_eq_zero _ p s.nextId
      (mem_filter_ne_fst _ _) (mem_filter_ne_fst _ _)

/-- A stale wildcard registration (fresh handle, but scoped to a parent
other than the written path's parent) does not count the handle. -/
theorem count_fireList_wild_mismatch (t : Store) (p : List String) (n : Nat)
    (he : ∀ x ∈ t.exactSubs, x.1 ≠ n)
    (l : List (Nat × List String)) (q : List String)
    (hw : t.wildSubs = l ++ [(n, q)]) (h0 : ∀ y ∈ l, y.1 ≠ n)
    (hq : q ≠ p.dropLast) :
    (fireList t p).count n = 0 := by
  unfold fireList
  rw [List.count_append, count_fst_filter_eq_zero _ _ _ he]
  by_cases hp2 : 2 ≤ p.length
  · rw [if_pos hp2, hw, count_fst_filter_append_zero l _ n (n, q) h0 (by simp [hq])]
  · simp [hp2]

/-- C3: a wildcard subscription on `p.*` fires exactly once for a write
to a direct child `p.c`, and fires zero times for a write to `p` itself
or to a grandchild `p.c.g` (single-level scope). -/
theorem wildcard_fires_only_for_direct_children
    (s : Store) (p : List String) (c gc : String) (v : JValue)
    (hWF : WF s) (hb : s.batching = false) (hp : p ≠ []) :
    ((s.subscribe (p ++ ["*"])).1.set (p ++ [c]) v).2.count
      (s.subscribe (p ++ ["*"])).2 = 1 ∧
    ((s.subscribe (p ++ ["*"])).1.set p v).2.count
      (s.subscribe (p ++ ["*"])).2 = 0 ∧
    ((s.subscribe (p ++ ["*"])).1.set (p ++ [c, gc]) v).2.count
      (s.subscribe (p ++ ["*"])).2 = 0 := by
  obtain ⟨hE, hW, -⟩ := hWF
  rw [subscribe_snd]
  have hE' : ∀ x ∈ s.exactSubs, x.1 ≠ s.nextId := fun x hx => Nat.ne_of_lt (hE x hx)
  have hW' : ∀ x ∈ s.wildSubs, x.1 ≠ s.nextId := fun x hx => Nat.ne_of_lt (hW x hx)
  have hlen : 1 ≤ p.length := List.length_pos.mpr hp
  have hc : 2 ≤ (p ++ ["*"]).length ∧ (p ++ ["*"]).getLast? = some "*" := by
    constructor
    · simp only [List.length_append, List.length_singleton]; omega
    · exact List.getLast?_concat _
  rw [subscribe_fst_wild s (p ++ ["*"]) hc]
  have hdrop : (p ++ ["*"]).dropLast = p := List.dropLast_concat
  rw [hdrop]
  have hb1 : ({ s with
      wildSubs := s.wildSubs ++ [(s.nextId, p)]
      nextId := s.nextId + 1 } : Store).batching = false := hb
  refine ⟨?_, ?_, ?_⟩
  · rw [set_snd_of_not_batching _ _ _ hb1, fireList_tree_irrel]
    refine count_fireList_fresh_wild _ (p ++ [c]) s.nextId hE'
      ⟨s.wildSubs, ?_, hW'⟩ ?_
    · rw [List.dropLast_concat]
    · simp only [List.length_append, List.length_singleton]; omega
  · rw [set_snd_of_not_batching _ _ _ hb1, fireList_tree_irrel]
    refine count_fireList_wild_mismatch _ p s.nextId hE' s.wildSubs p rfl hW' ?_
    intro h
    have hlt : p.dropLast.length < p.length := by
      rw [List.length_dropLast]; omega
    rw [← h] at hlt
    omega
  · rw [set_snd_of_not_batching _ _ _ hb1, fireList_tree_irrel]
    refine count_fireList_wild_mismatch _ (p ++ [c, gc]) s.nextId hE'
      s.wildSubs p rfl hW' ?_
    have h2 : p ++ [c, gc] = (p ++ [c]) ++ [gc] := by simp
    rw [h2, List.dropLast_concat]
    intro h
    have := congrArg List.length h
    simp at this

/-- Inside an open batch, running a write sequence updates the tree
write-by-write and accumulates each written path once into the dirty
list, touching nothing else. -/
theorem runWrites_batching_true (s : Store) (ws : List (List String × JValue))
    (h : s.batching = true) :
    runWrites s ws = { s with
      tree := applyWrites s.tree ws
      dirty := collectDirty s.dirty ws } := by
  induction ws generalizing s with
  | nil => rfl
  | cons wv ws ih =>
      obtain ⟨p, v⟩ := wv
      have hset : (s.set p v).1 = { s with
          tree := setPath s.tree p v
          dirty := addDirty s.dirty p } := by
        unfold Store.set; simp [h]
      show runWrites (s.set p v).1 ws = _
      rw [hset, ih { s with
        tree := setPath s.tree p v
        dirty := addDirty s.dirty p } h]
      rfl

/-- C4: `setMany(map)` is observationally equal to the corresponding
sequence of `set` calls wrapped in a single batch: same resulting store
and the same notification list (each affected path's listeners fire once,
after all writes are applied). -/
theorem setMany_equals_batched_sets (s : Store)
    (entries : List (List String × JValue)) (hWF : WF s) :
    s.setMany entries = s.batch entries := by
  obtain ⟨-, -, hD⟩ := hWF
  by_cases hb : s.batching
  · unfold Store.setMany Store.batch
    rw [if_pos hb, if_pos hb, runWrites_batching_true s entries hb]
  · have hb' : s.batching = false := by simpa using hb
    have hd : s.dirty = [] := hD hb'
    unfold Store.setMany Store.batch
    rw [if_neg hb, if_neg hb,
      runWrites_batching_true { s with batching := true } entries rfl]
    rw [hd]
    refine Prod.ext ?_ rfl
    show ({ s with
        tree := applyWrites s.tree entries
        dirty := ([] : List (List String)) } : Store) = { s with
        tree := applyWrites s.tree entries
        batching := false
        dirty := ([] : List (List String)) }
    rw [← hb']

theorem subscribe_fst_dirty (s : Store) (p : List String) :
    (s.subscribe p).1.dirty = s.dirty := by
  unfold Store.subscribe; split <;> rfl

/-- A batch opened on a quiescent store (no open batch, empty dirty list)
applies all its writes to the tree and then flushes one fan-out per
distinct written path, in the order the paths were first touched. -/
theorem batch_not_batching (t : Store) (ws : List (List String × JValue))
    (hb : t.batching = false) (hd : t.dirty = []) :
    t.batch ws = ({ t with
        tree := applyWrites t.tree ws
        dirty := [] },
      ((collectDirty [] ws).map (fun p => fireList t p)).flatten) := by
  have hbne : ¬ (t.batching = true) := by simp [hb]
  unfold Store.batch
  rw [if_neg hbne, runWrites_batching_true { t with batching := true } ws rfl]
  rw [show ({ t with batching := true } : Store).dirty = [] from hd]
  refine Prod.ext ?_ rfl
  show ({ t with
      tree := applyWrites t.tree ws
      batching := false
      dirty := ([] : List (List String)) } : Store) = _
  rw [← hb]

/-- C5: writes nested in a `batch` are applied to the tree immediately
but notified only on completion: a listener on a path written twice
inside the batch fires exactly once and a read after the batch sees the
final value; with two distinct paths touched in order, the flush is one
fan-out per path, in first-touched order. -/
theorem batch_fires_once_per_dirty_path
    (s : Store) (p q : List String) (v1 v2 w : JValue)
    (hWF : WF s) (hb : s.batching = false) (hpq : q ≠ p) :
    ((s.subscribe p).1.batch [(p, v1), (p, v2)]).2.count (s.subscribe p).2 = 1 ∧
    ((s.subscribe p).1.batch [(p, v1), (p, v2)]).1.get p = some v2 ∧
    (((s.subscribe p).1.subscribe q).1.batch [(p, v1), (q, w)]).2 =
      fireList ((s.subscribe p).1.subscribe q).1 p ++
        fireList ((s.subscribe p).1.subscribe q).1 q := by
  obtain ⟨hE, hW, hD⟩ := hWF
  have hd : s.dirty = [] := hD hb
  have hb1 : (s.subscribe p).1.batching = false := by
    rw [subscribe_fst_batching]; exact hb
  have hd1 : (s.subscribe p).1.dirty = [] := by
    rw [subscribe_fst_dirty]; exact hd
  have hcd1 : collectDirty [] [(p, v1), (p, v2)] = [p] := by
    simp [collectDirty, addDirty]
  have hcd2 : collectDirty [] [(p, v1), (q, w)] = [p, q] := by
    simp [collectDirty, addDirty, hpq]
  refine ⟨?_, ?_, ?_⟩
  · rw [batch_not_batching _ _ hb1 hd1, hcd1]
    simp only [List.map_cons, List.map_nil, List.flatten_cons, List.flatten_nil,
      List.append_nil, subscribe_snd]
    have hE' : ∀ x ∈ s.exactSubs, x.1 ≠ s.nextId := fun x hx => Nat.ne_of_lt (hE x hx)
    have hW' : ∀ x ∈ s.wildSubs, x.1 ≠ s.nextId := fun x hx => Nat.ne_of_lt (hW x hx)
    by_cases hc : 2 ≤ p.length ∧ p.getLast? = some "*"
    · rw [subscribe_fst_wild s p hc]
      exact count_fireList_fresh_wild _ p s.nextId hE' ⟨s.wildSubs, rfl, hW'⟩ hc.1
    · rw [subscribe_fst_exact s p hc]
      exact count_fireList_fresh_exact _ p s.nextId ⟨s.exactSubs, rfl, hE'⟩ hW'
  · rw [batch_not_batching _ _ hb1 hd1]
    unfold Store.get
    show getPath (applyWrites (s.subscribe p).1.tree [(p, v1), (p, v2)]) p = some v2
    show getPath (setPath (setPath (s.subscribe p).1.tree p v1) p v2) p = some v2
    exact getPath_setPath_self p _ v2
  · have hb2 : ((s.subscribe p).1.subscribe q).1.batching = false := by
      rw [subscribe_fst_batching]; exact hb1
    have hd2 : ((s.subscribe p).1.subscribe q).1.dirty = [] := by
      rw [subscribe_fst_dirty]; exact hd1
    rw [batch_not_batching _ _ hb2 hd2, hcd2]
    simp [List.flatten_cons]

theorem genOf_cons_self (gens : List (List String × Nat)) (p : List String) (g : Nat) :
    genOf ((p, g) :: gens) p = g := by
  simp [genOf]

theorem getPath_obj_single (fields : List (String × JValue)) (k : String) :
    getPath (JValue.obj fields) [k] = lookupField fields k := by
  cases h : lookupField fields k <;> simp [getPath, h]

theorem lookup_env_status (old : Option JValue) (st : String) (ev : JValue) :
    lookupField (dataField old ++ [("status", JValue.str st), ("error", ev)])
      "status" = some (JValue.str st) := by
  cases old <;> simp [dataField, lookupField]

theorem lookup_env_error (old : Option JValue) (st : String) (ev : JValue) :
    lookupField (dataField old ++ [("status", JValue.str st), ("error", ev)])
      "error" = some ev := by
  cases old <;> simp [dataField, lookupField]

theorem lookup_env_data (old : Option JValue) (st : String) (ev : JValue) :
    lookupField (dataField old ++ [("status", JValue.str st), ("error", ev)])
      "data" = old := by
  cases old <;> simp [dataField, lookupField]

theorem setAsyncStart_fst_tree (s : Store) (p : List String) :
    (s.setAsyncStart p).1.tree = setPath s.tree p (loadingEnv s p) := by
  unfold Store.setAsyncStart
  rw [set_fst_tree]

theorem setAsyncStart_fst_gens (s : Store) (p : List String) :
    (s.setAsyncStart p).1.gens = (p, genOf s.gens p + 1) :: s.gens := by
  unfold Store.setAsyncStart
  rw [set_fst_gens]

theorem setAsyncStart_fst_destroyed (s : Store) (p : List String) :
    (s.setAsyncStart p).1.destroyed = s.destroyed := by
  unfold Store.setAsyncStart
  rw [set_fst_destroyed]

theorem setAsyncStart_gen (s : Store) (p : List String) :
    (s.setAsyncStart p).2.2 = genOf s.gens p + 1 := rfl

/-- Reading one envelope field of a just-written envelope value. -/
theorem get_setPath_obj (t : JValue) (p : List String)
    (fields : List (String × JValue)) (k : String) :
    getPath (setPath t p (JValue.obj fields)) (p ++ [k]) = lookupField fields k := by
  rw [getPath_setPath_append, getPath_obj_single]

theorem setAsyncResolve_current (s : Store) (p : List String) (g : Nat) (X : JValue)
    (hg : g = genOf s.gens p) (hd : s.destroyed = false) :
    s.setAsyncResolve p g X = s.set p (JValue.obj
      [("status", JValue.str "success"), ("data", X), ("error", JValue.null)]) := by
  unfold Store.setAsyncResolve
  rw [if_pos ⟨hg, hd⟩]

theorem setAsyncReject_current (s : Store) (p : List String) (g : Nat) (err : String)
    (hg : g = genOf s.gens p) (hd : s.destroyed = false) :
    s.setAsyncReject p g err = s.set p (JValue.obj
      (dataField (getPath s.tree (p ++ ["data"])) ++
        [("status", JValue.str "error"), ("error", JValue.str err)])) := by
  unfold Store.setAsyncReject
  rw [if_pos ⟨hg, hd⟩]

/-- C6: a `setAsync` whose fetcher resolves to `X` (and is not
superseded) takes the path's status from `loading` to `success`, makes
the path's data equal `X` after resolution, and keeps the path's error
null at both stages of the lifecycle. -/
theorem setAsync_success_lifecycle (s : Store) (p : List String) (X : JValue)
    (hd : s.destroyed = false) :
    (s.setAsyncStart p).1.get (p ++ ["status"]) = some (JValue.str "loading") ∧
    (s.setAsyncStart p).1.get (p ++ ["error"]) = some JValue.null ∧
    ((s.setAsyncStart p).1.setAsyncResolve p (s.setAsyncStart p).2.2 X).1.get
      (p ++ ["status"]) = some (JValue.str "success") ∧
    ((s.setAsyncStart p).1.setAsyncResolve p (s.setAsyncStart p).2.2 X).1.get
      (p ++ ["data"]) = some X ∧
    ((s.setAsyncStart p).1.setAsyncResolve p (s.setAsyncStart p).2.2 X).1.get
      (p ++ ["error"]) = some JValue.null := by
  have hres : (s.setAsyncStart p).1.setAsyncResolve p (s.setAsyncStart p).2.2 X =
      (s.setAsyncStart p).1.set p (JValue.obj
        [("status", JValue.str "success"), ("data", X), ("error", JValue.null)]) := by
    refine setAsyncResolve_current _ _ _ _ ?_ ?_
    · rw [setAsyncStart_gen, setAsyncStart_fst_gens, genOf_cons_self]
    · rw [setAsyncStart_fst_destroyed]; exact hd
  refine ⟨?_, ?_, ?_, ?_, ?_⟩
  · unfold Store.get
    rw [setAsyncStart_fst_tree]
    unfold loadingEnv
    rw [get_setPath_obj]
    exact lookup_env_status _ _ _
  · unfold Store.get
    rw [setAsyncStart_fst_tree]
    unfold loadingEnv
    rw [get_setPath_obj]
    exact lookup_env_error _ _ _
  · unfold Store.get
    rw [hres, set_fst_tree, get_setPath_obj]
    simp [lookupField]
  · unfold Store.get
    rw [hres, set_fst_tree, get_setPath_obj]
    simp [lookupField]
  · unfold Store.get
    rw [hres, set_fst_tree, get_setPath_obj]
    simp [lookupField]

/-- C7: a `setAsync` whose fetcher rejects (and is not superseded) sets
the path's status to `error`, populates the path's error with the failure
description, and leaves the path's data unchanged from its value before
the `setAsync` call. -/
theorem setAsync_error_lifecycle (s : Store) (p : List String) (err : String)
    (hd : s.destroyed = false) :
    ((s.setAsyncStart p).1.setAsyncReject p (s.setAsyncStart p).2.2 err).1.get
      (p ++ ["status"]) = some (JValue.str "error") ∧
    ((s.setAsyncStart p).1.setAsyncReject p (s.setAsyncStart p).2.2 err).1.get
      (p ++ ["error"]) = some (JValue.str err) ∧
    ((s.setAsyncStart p).1.setAsyncReject p (s.setAsyncStart p).2.2 err).1.get
      (p ++ ["data"]) = s.get (p ++ ["data"]) := by
  have hdataload : getPath (s.setAsyncStart p).1.tree (p ++ ["data"]) =
      getPath s.tree (p ++ ["data"]) := by
    rw [setAsyncStart_fst_tree]
    unfold loadingEnv
    rw [get_setPath_obj]
    exact lookup_env_data _ _ _
  have hrej : (s.setAsyncStart p).1.setAsyncReject p (s.setAsyncStart p).2.2 err =
      (s.setAsyncStart p).1.set p (JValue.obj
        (dataField (getPath (s.setAsyncStart p).1.tree (p ++ ["data"])) ++
          [("status", JValue.str "error"), ("error", JValue.str err)])) := by
    refine setAsyncReject_current _ _ _ _ ?_ ?_
    · rw [setAsyncStart_gen, setAsyncStart_fst_gens, genOf_cons_self]
    · rw [setAsyncStart_fst_destroyed]; exact hd
  refine ⟨?_, ?_, ?_⟩
  · unfold Store.get
    rw [hrej, set_fst_tree, get_setPath_obj]
    exact lookup_env_status _ _ _
  · unfold Store.get
    rw [hrej, set_fst_tree, get_setPath_obj]
    exact lookup_env_error _ _ _
  · unfold Store.get
    rw [hrej, set_fst_tree, get_setPath_obj, hdataload]
    exact lookup_env_data _ _ _

/-- C8: when a second `setAsync` on the same path starts before the
first one's fetcher completes, the first generation's eventual completion
(success or failure) is silently discarded: it leaves the store exactly
as the second generation wrote it and notifies no listener. -/
theorem superseded_setAsync_is_discarded (s : Store) (p : List String)
    (X : JValue) (err : String) :
    (((s.setAsyncStart p).1.setAsyncStart p).1.setAsyncResolve p
        (s.setAsyncStart p).2.2 X =
      (((s.setAsyncStart p).1.setAsyncStart p).1, [])) ∧
    (((s.setAsyncStart p).1.setAsyncStart p).1.setAsyncReject p
        (s.setAsyncStart p).2.2 err =
      (((s.setAsyncStart p).1.setAsyncStart p).1, [])) := by
  have hg1 : (s.setAsyncStart p).2.2 = genOf s.gens p + 1 := setAsyncStart_gen s p
  have hg2 : genOf (((s.setAsyncStart p).1.setAsyncStart p).1).gens p =
      genOf s.gens p + 1 + 1 := by
    rw [setAsyncStart_fst_gens, genOf_cons_self, setAsyncStart_fst_gens, genOf_cons_self]
  have hne : ¬((s.setAsyncStart p).2.2 =
      genOf (((s.setAsyncStart p).1.setAsyncStart p).1).gens p ∧
      (((s.setAsyncStart p).1.setAsyncStart p).1).destroyed = false) := by
    rintro ⟨h, -⟩
    rw [hg1, hg2] at h
    omega
  constructor
  · unfold Store.setAsyncResolve
    rw [if_neg hne]
  · unfold Store.setAsyncReject
    rw [if_neg hne]

/-- C1: for every path `p` and JSON-like value `v`, `set(p, v)` followed
immediately by `get(p)` on the resulting store returns `v` (the write is
applied to the tree even inside a batch or after destroy, so no
hypothesis is needed). -/
theorem set_then_get_returns_value (s : Store) (p : List String) (v : JValue) :
    ((s.set p v).1).get p = some v := by
  unfold Store.get
  rw [set_fst_tree]
  exact getPath_setPath_self p s.tree v

/-- C9: after `destroy()`, a `set` notifies no listener, the synchronous
loading write of `setAsync` notifies no listener, and the success or
failure continuation of any pending async generation is discarded without
notifying; none of these operations can throw (they are total). -/
theorem destroyed_store_is_inert (s : Store) (p : List String) (v X : JValue)
    (g : Nat) (err : String) :
    ((s.destroy.set p v).2 = []) ∧
    ((s.destroy.setAsyncStart p).2.1 = []) ∧
    ((s.destroy.setAsyncResolve p g X).2 = []) ∧
    ((s.destroy.setAsyncReject p g err).2 = []) := by
  have hsubs : ∀ (t : Store), t.exactSubs = [] → t.wildSubs = [] →
      ∀ (q : List String) (w : JValue), (t.set q w).2 = [] := by
    intro t h1 h2 q w
    unfold Store.set
    by_cases hb : t.batching
    · simp [hb]
    · simp only [Bool.not_eq_true] at hb
      simp [hb]
      exact fireList_no_subs _ _ h1 h2
  refine ⟨hsubs _ rfl rfl p v, ?_, ?_, ?_⟩
  · unfold Store.setAsyncStart
    exact hsubs _ rfl rfl _ _
  · unfold Store.setAsyncResolve
    have hd : s.destroy.destroyed = true := rfl
    simp [hd]
  · unfold Store.setAsyncReject
    have hd : s.destroy.destroyed = true := rfl
    simp [hd]

/-- C10: `useStore` errors when the surrounding context provides no store
(context value null), and returns the provided store value unchanged
otherwise. -/
theorem useStore_requires_provider (s : Store) :
    useStore none = Except.error
      "useStore: no store found. Wrap your component tree in <EventStateProvider store={store}>."
    ∧ useStore (some s) = Except.ok s :=
  ⟨rfl, rfl⟩

/-- Witness for C2 at a concrete store and path. -/
theorem subscribe_fire_once_unsubscribe_fires_zero_witness :
    WF (mkStore (JValue.obj [("count", JValue.num 0)])) ∧
    (mkStore (JValue.obj [("count", JValue.num 0)])).batching = false ∧
    (((mkStore (JValue.obj [("count", JValue.num 0)])).subscribe ["count"]).1.set
        ["count"] (JValue.num 1)).2.count
      ((mkStore (JValue.obj [("count", JValue.num 0)])).subscribe ["count"]).2 = 1 ∧
    (((((mkStore (JValue.obj [("count", JValue.num 0)])).subscribe ["count"]).1.set
          ["count"] (JValue.num 1)).1.unsubscribe
        ((mkStore (JValue.obj [("count", JValue.num 0)])).subscribe ["count"]).2).set
        ["count"] (JValue.num 2)).2.count
      ((mkStore (JValue.obj [("count", JValue.num 0)])).subscribe ["count"]).2 = 0 :=
  ⟨by decide, rfl,
    subscribe_fire_once_unsubscribe_fires_zero
      (mkStore (JValue.obj [("count", JValue.num 0)])) ["count"]
      (JValue.num 1) (JValue.num 2) (by decide) rfl⟩

/-- Witness for C3 at a concrete store, parent path, child and grandchild. -/
theorem wildcard_fires_only_for_direct_children_witness :
    WF (mkStore (JValue.obj [])) ∧
    (mkStore (JValue.obj [])).batching = false ∧
    (["state", "tasks"] : List String) ≠ [] ∧
    (((mkStore (JValue.obj [])).subscribe (["state", "tasks"] ++ ["*"])).1.set
        (["state", "tasks"] ++ ["t1"]) (JValue.str "A")).2.count
      ((mkStore (JValue.obj [])).subscribe (["state", "tasks"] ++ ["*"])).2 = 1 ∧
    (((mkStore (JValue.obj [])).subscribe (["state", "tasks"] ++ ["*"])).1.set
        ["state", "tasks"] (JValue.str "A")).2.count
      ((mkStore (JValue.obj [])).subscribe (["state", "tasks"] ++ ["*"])).2 = 0 ∧
    (((mkStore (JValue.obj [])).subscribe (["state", "tasks"] ++ ["*"])).1.set
        (["state", "tasks"] ++ ["t1", "done"]) (JValue.str "A")).2.count
      ((mkStore (JValue.obj [])).subscribe (["state", "tasks"] ++ ["*"])).2 = 0 :=
  ⟨by decide, rfl, by decide,
    wildcard_fires_only_for_direct_children (mkStore (JValue.obj []))
      ["state", "tasks"] "t1" "done" (JValue.str "A") (by decide) rfl (by decide)⟩

/-- Witness for C4 at a concrete store and two-path mapping. -/
theorem setMany_equals_batched_sets_witness :
    WF (mkStore (JValue.obj [("a", JValue.num 0), ("b", JValue.num 0)])) ∧
    (mkStore (JValue.obj [("a", JValue.num 0), ("b", JValue.num 0)])).setMany
        [(["a"], JValue.num 1), (["b"], JValue.num 2)] =
      (mkStore (JValue.obj [("a", JValue.num 0), ("b", JValue.num 0)])).batch
        [(["a"], JValue.num 1), (["b"], JValue.num 2)] :=
  ⟨by decide,
    setMany_equals_batched_sets
      (mkStore (JValue.obj [("a", JValue.num 0), ("b", JValue.num 0)]))
      [(["a"], JValue.num 1), (["b"], JValue.num 2)] (by decide)⟩

/-- Witness for C5 at a concrete store, a double-written path `a` and a
distinct path `b`. -/
theorem batch_fires_once_per_dirty_path_witness :
    WF (mkStore (JValue.obj [("a", JValue.num 0)])) ∧
    (mkStore (JValue.obj [("a", JValue.num 0)])).batching = false ∧
    (["b"] : List String) ≠ ["a"] ∧
    (((mkStore (JValue.obj [("a", JValue.num 0)])).subscribe ["a"]).1.batch
        [(["a"], JValue.num 1), (["a"], JValue.num 2)]).2.count
      ((mkStore (JValue.obj [("a", JValue.num 0)])).subscribe ["a"]).2 = 1 ∧
    (((mkStore (JValue.obj [("a", JValue.num 0)])).subscribe ["a"]).1.batch
        [(["a"], JValue.num 1), (["a"], JValue.num 2)]).1.get ["a"] =
      some (JValue.num 2) ∧
    ((((mkStore (JValue.obj [("a", JValue.num 0)])).subscribe ["a"]).1.subscribe
          ["b"]).1.batch [(["a"], JValue.num 1), (["b"], JValue.num 3)]).2 =
      fireList (((mkStore (JValue.obj [("a", JValue.num 0)])).subscribe
          ["a"]).1.subscribe ["b"]).1 ["a"] ++
        fireList (((mkStore (JValue.obj [("a", JValue.num 0)])).subscribe
          ["a"]).1.subscribe ["b"]).1 ["b"] :=
  ⟨by decide, rfl, by decide,
    batch_fires_once_per_dirty_path (mkStore (JValue.obj [("a", JValue.num 0)]))
      ["a"] ["b"] (JValue.num 1) (JValue.num 2) (JValue.num 3)
      (by decide) rfl (by decide)⟩

/-- Witness for C6 at a concrete store and resolved value. -/
theorem setAsync_success_lifecycle_witness :
    (mkStore (JValue.obj [])).destroyed = false ∧
    ((mkStore (JValue.obj [])).setAsyncStart ["users"]).1.get
      (["users"] ++ ["status"]) = some (JValue.str "loading") ∧
    ((mkStore (JValue.obj [])).setAsyncStart ["users"]).1.get
      (["users"] ++ ["error"]) = some JValue.null ∧
    (((mkStore (JValue.obj [])).setAsyncStart ["users"]).1.setAsyncResolve ["users"]
        ((mkStore (JValue.obj [])).setAsyncStart ["users"]).2.2
        (JValue.arr [JValue.obj [("id", JValue.num 1), ("name", JValue.str "Alice")]])).1.get
      (["users"] ++ ["status"]) = some (JValue.str "success") ∧
    (((mkStore (JValue.obj [])).setAsyncStart ["users"]).1.setAsyncResolve ["users"]
        ((mkStore (JValue.obj [])).setAsyncStart ["users"]).2.2
        (JValue.arr [JValue.obj [("id", JValue.num 1), ("name", JValue.str "Alice")]])).1.get
      (["users"] ++ ["data"]) =
      some (JValue.arr [JValue.obj [("id", JValue.num 1), ("name", JValue.str "Alice")]]) ∧
    (((mkStore (JValue.obj [])).setAsyncStart ["users"]).1.setAsyncResolve ["users"]
        ((mkStore (JValue.obj [])).setAsyncStart ["users"]).2.2
        (JValue.arr [JValue.obj [("id", JValue.num 1), ("name", JValue.str "Alice")]])).1.get
      (["users"] ++ ["error"]) = some JValue.null :=
  ⟨rfl,
    setAsync_success_lifecycle (mkStore (JValue.obj [])) ["users"]
      (JValue.arr [JValue.obj [("id", JValue.num 1), ("name", JValue.str "Alice")]]) rfl⟩

/-- Witness for C7 at a concrete store and failure description. -/
theorem setAsync_error_lifecycle_witness :
    (mkStore (JValue.obj [])).destroyed = false ∧
    (((mkStore (JValue.obj [])).setAsyncStart ["data"]).1.setAsyncReject ["data"]
        ((mkStore (JValue.obj [])).setAsyncStart ["data"]).2.2 "Network error").1.get
      (["data"] ++ ["status"]) = some (JValue.str "error") ∧
    (((mkStore (JValue.obj [])).setAsyncStart ["data"]).1.setAsyncReject ["data"]
        ((mkStore (JValue.obj [])).setAsyncStart ["data"]).2.2 "Network error").1.get
      (["data"] ++ ["error"]) = some (JValue.str "Network error") ∧
    (((mkStore (JValue.obj [])).setAsyncStart ["data"]).1.setAsyncReject ["data"]
        ((mkStore (JValue.obj [])).setAsyncStart ["data"]).2.2 "Network error").1.get
      (["data"] ++ ["data"]) = (mkStore (JValue.obj [])).get (["data"] ++ ["data"]) :=
  ⟨rfl,
    setAsync_error_lifecycle (mkStore (JValue.obj [])) ["data"] "Network error" rfl⟩

end UIState
